import Mathlib

/-!
Verification of the player-statistics oracle (`src/oracle.js`).

The development shallowly embeds the two cores of the program:

* `pack32` — the bit-packing codec.  JavaScript field accesses on a JSON
  record may yield `undefined`, so every numeric field of a record is an
  `Option Int` (`none` = the field is absent).  The JS operations that the
  codec applies to possibly-absent numbers are modelled by `jsGtNum`
  (`p.f > k`, which is `false` when the operand is `undefined`/NaN),
  `jsMin` (`Math.min`, NaN-propagating, NaN modelled by `none`),
  `jsFloorDiv` (`Math.floor(v / k)` on integral values, = floor division)
  and `bitsOf` (`v & mask` for a mask of `m - 1` with `m` a power of two:
  JavaScript converts the operand with ToInt32 and masks, which on integers
  is exactly the Euclidean remainder `v.emod m`; ToInt32 of NaN is 0).
  Booleans are `Option Bool`; `if (p.flag)` is truthiness (`jsTruthy`).
* the submission pipeline — `sendPacked` plus the main loop (`runRecords`,
  `runBatch`).  Network effects are abstracted into an `Env`: `baseFee c`
  is the `baseFeePerGas` of the pending block observed by the `c`-th call
  of `sendPacked` (`none` = the field is unavailable, in which case
  `BigInt(undefined)` throws), and `submit c a` is the outcome of attempt
  `a` (0-based) of that call (`none` = `sendSignedTransaction` rejects,
  `some o` = a receipt with `o.gasUsed`, observed latency `o.latencyMs`).
  `async-retry` with `retries: 3` makes at most 4 attempts (`attemptLoop`).
  The averages the summary prints use JS float division; they are modelled
  with exact rational division (the divisor, which is what the claims are
  about, is unchanged).
-/

namespace OraculoFantasy

/-- One input record (`stats.json` row).  Numeric fields are `Option Int`
(`none` = field absent from the JSON object), flags are `Option Bool`. -/
structure PlayerStat where
  id : Int
  goles : Option Int
  asistencias : Option Int
  penaltisParados : Option Int
  paradas : Option Int
  despejes : Option Int
  minutosJugados : Option Int
  tarjetasAmarillas : Option Int
  tarjetasRojas : Option Int
  porteriaCero : Option Bool
  ganoPartido : Option Bool
deriving Repr, DecidableEq

/-- JS `x > k` for a possibly-absent number: comparisons against
`undefined`/NaN are `false`. -/
def jsGtNum (x : Option Int) (k : Int) : Bool :=
  match x with
  | none => false
  | some v => decide (v > k)

/-- JS `Math.min(x, k)`: NaN (here: an absent operand) propagates. -/
def jsMin (x : Option Int) (k : Int) : Option Int :=
  match x with
  | none => none
  | some v => some (min v k)

/-- JS `Math.floor(x / k)` on an integral `x` and positive integral `k`:
floor division; NaN propagates. -/
def jsFloorDiv (x : Option Int) (k : Int) : Option Int :=
  match x with
  | none => none
  | some v => some (Int.fdiv v k)

/-- JS `x & (m - 1)` for `m` a power of two: ToInt32 + mask keeps the low
bits of the two's complement representation, i.e. the Euclidean remainder;
ToInt32 of NaN/`undefined` is 0. -/
def bitsOf (x : Option Int) (m : Int) : Nat :=
  match x with
  | none => 0
  | some v => (v % m).toNat

/-- JS truthiness of a possibly-absent boolean (`undefined` is falsy). -/
def jsTruthy (x : Option Bool) : Bool :=
  match x with
  | none => false
  | some b => b

/-- Digit characters produced by `BigInt.prototype.toString(16)`
(lowercase hexadecimal). -/
def hexDigitChar : Nat → Char
  | 0 => '0' | 1 => '1' | 2 => '2' | 3 => '3'
  | 4 => '4' | 5 => '5' | 6 => '6' | 7 => '7'
  | 8 => '8' | 9 => '9' | 10 => 'a' | 11 => 'b'
  | 12 => 'c' | 13 => 'd' | 14 => 'e' | 15 => 'f'
  | _ => '0'

/-- `n.toString(16)` for a non-negative BigInt `n`: most-significant-first
base-16 digits, no leading zeros, `"0"` for zero. -/
def hexRep (n : Nat) : List Char :=
  if _h : n < 16 then [hexDigitChar n]
  else hexRep (n / 16) ++ [hexDigitChar (n % 16)]
termination_by n
decreasing_by exact Nat.div_lt_self (by omega) (by omega)

/-- `String.prototype.padStart(k, c)` on the underlying character list. -/
def padStart (k : Nat) (c : Char) (l : List Char) : List Char :=
  List.replicate (k - l.length) c ++ l

/-- The packing expression of `pack32` (src/oracle.js:41-54): clamp
`paradas`/`despejes`, quantize `minutosJugados`, then or the masked fields
into the word `d`. -/
def rawWord (p : PlayerStat) : Nat :=
  let paradas := jsMin p.paradas 31
  let despejes := jsMin p.despejes 63
  let minutosQ := jsFloorDiv p.minutosJugados 3
  let d := bitsOf p.goles 16
  let d := d ||| bitsOf p.asistencias 16 <<< 4
  let d := d ||| bitsOf paradas 32 <<< 8
  let d := d ||| bitsOf p.penaltisParados 8 <<< 13
  let d := d ||| bitsOf despejes 64 <<< 16
  let d := d ||| bitsOf minutosQ 32 <<< 22
  let d := d ||| bitsOf p.tarjetasAmarillas 4 <<< 27
  let d := d ||| bitsOf p.tarjetasRojas 2 <<< 29
  let d := if jsTruthy p.porteriaCero then d ||| 1 <<< 30 else d
  let d := if jsTruthy p.ganoPartido then d ||| 1 <<< 31 else d
  d

/-- `pack32` (src/oracle.js:30-57): validates the hard limits, computes
the packed word (`rawWord`) and renders it as
`"0x" + d.toString(16).padStart(8, "0")`.  A thrown `Error` is an
`Except.error` carrying the message. -/
def pack32 (p : PlayerStat) : Except String String :=
  if jsGtNum p.goles 8 then .error ("goles>8 id=" ++ toString p.id)
  else if jsGtNum p.asistencias 8 then .error ("asis>8 id=" ++ toString p.id)
  else if jsGtNum p.penaltisParados 4 then
    .error ("penaltisParados>4 id=" ++ toString p.id)
  else if jsGtNum p.paradas 32 || jsGtNum p.despejes 64 then
    .error ("paradas/despejes fuera de rango id=" ++ toString p.id)
  else if jsGtNum p.minutosJugados 90 then .error ("minutos>90 id=" ++ toString p.id)
  else if jsGtNum p.tarjetasAmarillas 2 || jsGtNum p.tarjetasRojas 1 then
    .error ("tarjetas fuera de rango id=" ++ toString p.id)
  else .ok ("0x" ++ String.mk (padStart 8 '0' (hexRep (rawWord p))))

/-- The disjunction of the six hard-limit guards of `pack32`
(src/oracle.js:32-39), in source order. -/
def hardLimitHit (p : PlayerStat) : Bool :=
  jsGtNum p.goles 8 || jsGtNum p.asistencias 8 || jsGtNum p.penaltisParados 4 ||
  jsGtNum p.paradas 32 || jsGtNum p.despejes 64 || jsGtNum p.minutosJugados 90 ||
  jsGtNum p.tarjetasAmarillas 2 || jsGtNum p.tarjetasRojas 1

/-- `GAS_LIMIT` (src/oracle.js:21). -/
def GAS_LIMIT : Nat := 120000

/-- A signed submission request: the `txData` object of `sendPacked`
(src/oracle.js:72-80).  `callId`/`callData` stand for the arguments of the
ABI-encoded call `actualizarStatsPacked32(id, packedHex)`. -/
structure TxRequest where
  gas : Nat
  maxPriorityFeePerGas : Int
  maxFeePerGas : Int
  nonce : Nat
  callId : Int
  callData : String
deriving Repr, DecidableEq

/-- A receipt: gas actually used plus the measured wall-clock latency. -/
structure Outcome where
  gasUsed : Nat
  latencyMs : Nat
deriving Repr, DecidableEq

/-- Abstracted network behaviour for one batch run.  `baseFee c` is the
pending-block `baseFeePerGas` seen by the `c`-th `sendPacked` call (`none`
= unavailable); `submit c a` is the result of the `a`-th submission
attempt of that call (`none` = the send rejects). -/
structure Env where
  baseFee : Nat → Option Int
  submit : Nat → Nat → Option Outcome

/-- How processing one record can fail: a `pack32` throw, the
`BigInt(block.baseFeePerGas)` conversion throwing because the field is
unavailable, or `async-retry` exhausting all attempts.  `submitFailed`
carries the requests that were signed and broadcast, as a trace. -/
inductive BatchFail where
  | validation (msg : String)
  | feeUnavailable
  | submitFailed (attempts : List TxRequest)
deriving Repr, DecidableEq

/-- Trace of one successfully submitted record: the request that was
built, the request signed at each attempt, and the receipt. -/
structure RecordResult where
  id : Int
  req : TxRequest
  attempts : List TxRequest
  outcome : Outcome
deriving Repr, DecidableEq

/-- The `async-retry` loop of `sendPacked` (src/oracle.js:82-93): sign the
same `txData` and send it, up to `fuel` times in total; the first
component collects the request signed at each attempt made. -/
def attemptLoop (env : Env) (callIdx : Nat) (req : TxRequest) :
    Nat → Nat → List TxRequest × Option Outcome
  | _, 0 => ([], none)
  | attempt, fuel + 1 =>
    match env.submit callIdx attempt with
    | some o => ([req], some o)
    | none =>
      let r := attemptLoop env callIdx req (attempt + 1) fuel
      (req :: r.1, r.2)

/-- `sendPacked` (src/oracle.js:63-94): fetch the pending block, convert
its base fee (throws if unavailable — this happens before the retry
loop), derive `tip = 2·10⁹` and `maxFee = 2·base + tip`, build `txData`,
then retry signing+sending it with `retries: 3` (at most 4 attempts). -/
def sendPacked (env : Env) (callIdx : Nat) (packedHex : String) (id : Int)
    (nonce : Nat) : Except BatchFail RecordResult :=
  match env.baseFee callIdx with
  | none => .error .feeUnavailable
  | some base =>
    let tip : Int := 2 * 10 ^ 9
    let maxFee := base * 2 + tip
    let txData : TxRequest :=
      { gas := GAS_LIMIT, maxPriorityFeePerGas := tip, maxFeePerGas := maxFee,
        nonce := nonce, callId := id, callData := packedHex }
    match attemptLoop env callIdx txData 0 4 with
    | (atts, some o) => .ok { id := id, req := txData, attempts := atts, outcome := o }
    | (atts, none) => .error (.submitFailed atts)

/-- The mutable state of the main loop: the nonce counter, the number of
`sendPacked` calls made so far (to address `Env`), and the metrics
accumulators `totalGas`/`latencies` plus the trace of submitted records. -/
structure BatchState where
  nonce : Nat
  callIdx : Nat
  totalGas : Nat
  latencies : List Nat
  results : List RecordResult
deriving Repr, DecidableEq

/-- Initial state of a batch run starting at nonce `n0`. -/
def initState (n0 : Nat) : BatchState :=
  { nonce := n0, callIdx := 0, totalGas := 0, latencies := [], results := [] }

/-- The `for (const p of stats)` loop (src/oracle.js:102-106): skip a
record whose `goles` field is `undefined`; otherwise pack it (a throw
aborts the run), submit it at the current nonce and bump the nonce by one;
a submission failure aborts the run.  An aborting error carries the
results accumulated so far, as the trace of what was submitted. -/
def runRecords (env : Env) (st : BatchState) :
    List PlayerStat → Except (BatchFail × List RecordResult) BatchState
  | [] => .ok st
  | p :: rest =>
    if p.goles.isNone then runRecords env st rest
    else
      match pack32 p with
      | .error msg => .error (.validation msg, st.results)
      | .ok packed =>
        match sendPacked env st.callIdx packed p.id st.nonce with
        | .error f => .error (f, st.results)
        | .ok r =>
          runRecords env
            { nonce := st.nonce + 1, callIdx := st.callIdx + 1,
              totalGas := st.totalGas + r.outcome.gasUsed,
              latencies := st.latencies ++ [r.outcome.latencyMs],
              results := st.results ++ [r] } rest

/-- The console summary (src/oracle.js:109-116): `stats.length` is printed
as the processed count and is the divisor of both averages.  JS divides
floats; the divisor is modelled exactly, with rational division. -/
structure Summary where
  processedCount : Nat
  totalGas : Nat
  avgGas : ℚ
  avgLat : ℚ
deriving Repr, DecidableEq

/-- Build the summary from the final accumulator state and the total
number of input records (`stats.length`). -/
def summarize (st : BatchState) (n : Nat) : Summary :=
  { processedCount := n, totalGas := st.totalGas,
    avgGas := (st.totalGas : ℚ) / (n : ℚ),
    avgLat := ((st.latencies.sum : ℚ)) / (n : ℚ) }

/-- One whole batch run (src/oracle.js:97-117): process the records from
nonce `n0`; on success print the summary (here: return it), on failure
propagate the error — no summary exists in that case. -/
def runBatch (env : Env) (stats : List PlayerStat) (n0 : Nat) :
    Except (BatchFail × List RecordResult) (BatchState × Summary) :=
  match runRecords env (initState n0) stats with
  | .error e => .error e
  | .ok st => .ok (st, summarize st stats.length)

/-- Number of records of a batch that pass the `goles`-presence check. -/
def numPresent (l : List PlayerStat) : Nat :=
  (l.filter fun p => p.goles.isSome).length

/-- Lowercase-hexadecimal-digit predicate. -/
def isHexLower (c : Char) : Bool :=
  ('0' ≤ c && c ≤ '9') || ('a' ≤ c && c ≤ 'f')

theorem lor_shiftLeft_eq_add (x y k : Nat) (hx : x < 2 ^ k) :
    x ||| y <<< k = 2 ^ k * y + x := by
  apply Nat.eq_of_testBit_eq
  intro j
  rw [Nat.testBit_lor, Nat.testBit_shiftLeft, Nat.testBit_mul_pow_two_add y hx j]
  by_cases hj : j < k
  · have h1 : ¬ j ≥ k := by omega
    simp [hj, h1]
  · have hxj : x.testBit j = false :=
      Nat.testBit_lt_two_pow
        (lt_of_lt_of_le hx (Nat.pow_le_pow_right (by omega) (by omega)))
    have h1 : j ≥ k := by omega
    simp [hj, hxj, h1]

theorem isHexLower_hexDigitChar (n : Nat) : isHexLower (hexDigitChar n) = true := by
  unfold hexDigitChar
  split <;> decide

theorem hexRep_chars (n : Nat) : ∀ c ∈ hexRep n, isHexLower c = true := by
  induction n using Nat.strong_induction_on with
  | _ n ih =>
    intro c hc
    rw [hexRep] at hc
    split at hc
    · simp only [List.mem_singleton] at hc
      subst hc
      exact isHexLower_hexDigitChar n
    · rcases List.mem_append.mp hc with h | h
      · exact ih (n / 16) (Nat.div_lt_self (by omega) (by omega)) c h
      · simp only [List.mem_singleton] at h
        subst h
        exact isHexLower_hexDigitChar (n % 16)

theorem hexRep_length_le : ∀ k n : Nat, 1 ≤ k → n < 16 ^ k → (hexRep n).length ≤ k := by
  intro k
  induction k with
  | zero => omega
  | succ k ih =>
    intro n _ hn
    rw [hexRep]
    split
    · simp
    · rename_i h16
      have hk : 1 ≤ k := by
        rcases Nat.eq_zero_or_pos k with h0 | h1
        · subst h0
          simp at hn
          omega
        · exact h1
      have hdiv : n / 16 < 16 ^ k := by
        rw [Nat.div_lt_iff_lt_mul (by omega)]
        calc n < 16 ^ (k + 1) := hn
        _ = 16 ^ k * 16 := by rw [pow_succ]
      have := ih (n / 16) hk hdiv
      simp only [List.length_append, List.length_singleton]
      omega

theorem padStart_length (k : Nat) (c : Char) (l : List Char) (h : l.length ≤ k) :
    (padStart k c l).length = k := by
  simp only [padStart, List.length_append, List.length_replicate]
  omega

theorem padStart_chars (k : Nat) (l : List Char)
    (hl : ∀ c ∈ l, isHexLower c = true) :
    ∀ c ∈ padStart k '0' l, isHexLower c = true := by
  intro c hc
  rcases List.mem_append.mp hc with h | h
  · rw [List.eq_of_mem_replicate h]
    decide
  · exact hl c h

/-- The PackedWord bit table written as the spec states it (spec section
3): each field's value, with the spec's clamping and quantization, placed
at its low bit position.  This definition follows the spec's words, to be
compared against `rawWord` from the source. -/
def specPackedWord (g a pen par des mi ya ro : Nat) (pc gp : Bool) : Nat :=
  g + 2 ^ 4 * a + 2 ^ 8 * min par 31 + 2 ^ 13 * pen + 2 ^ 16 * min des 63 +
  2 ^ 22 * (mi / 3) + 2 ^ 27 * ya + 2 ^ 29 * ro +
  (if pc then 2 ^ 30 else 0) + (if gp then 2 ^ 31 else 0)

theorem specPackedWord_lt (g a pen par des mi ya ro : Nat) (pc gp : Bool)
    (hg : g ≤ 8) (ha : a ≤ 8) (hpen : pen ≤ 4) (hmi : mi ≤ 90)
    (hya : ya ≤ 2) (hro : ro ≤ 1) :
    specPackedWord g a pen par des mi ya ro pc gp < 2 ^ 32 := by
  have h1 : min par 31 ≤ 31 := min_le_right _ _
  have h2 : min des 63 ≤ 63 := min_le_right _ _
  unfold specPackedWord
  rcases pc <;> rcases gp <;> simp <;> omega

theorem rawWord_eq_spec (idv : Int) (g a pen par des mi ya ro : Nat) (pc gp : Bool)
    (hg : g ≤ 8) (ha : a ≤ 8) (hpen : pen ≤ 4) (hpar : par ≤ 32) (hdes : des ≤ 64)
    (hmi : mi ≤ 90) (hya : ya ≤ 2) (hro : ro ≤ 1) :
    rawWord ⟨idv, some (g : Int), some (a : Int), some (pen : Int), some (par : Int),
             some (des : Int), some (mi : Int), some (ya : Int), some (ro : Int),
             some pc, some gp⟩ = specPackedWord g a pen par des mi ya ro pc gp := by
  have hb1 : bitsOf (some (g : Int)) 16 = g := by simp only [bitsOf]; omega
  have hb2 : bitsOf (some (a : Int)) 16 = a := by simp only [bitsOf]; omega
  have hb3 : bitsOf (jsMin (some (par : Int)) 31) 32 = min par 31 := by
    simp only [jsMin, bitsOf]
    omega
  have hb4 : bitsOf (some (pen : Int)) 8 = pen := by simp only [bitsOf]; omega
  have hb5 : bitsOf (jsMin (some (des : Int)) 63) 64 = min des 63 := by
    simp only [jsMin, bitsOf]
    omega
  have hb6 : bitsOf (jsFloorDiv (some (mi : Int)) 3) 32 = mi / 3 := by
    simp only [jsFloorDiv, bitsOf]
    rw [Int.fdiv_eq_ediv _ (by omega)]
    omega
  have hb7 : bitsOf (some (ya : Int)) 4 = ya := by simp only [bitsOf]; omega
  have hb8 : bitsOf (some (ro : Int)) 2 = ro := by simp only [bitsOf]; omega
  have hmin1 : min par 31 ≤ 31 := min_le_right _ _
  have hmin2 : min des 63 ≤ 63 := min_le_right _ _
  have s1 : g ||| a <<< 4 = 2 ^ 4 * a + g :=
    lor_shiftLeft_eq_add _ _ _ (by omega)
  have s2 : 2 ^ 4 * a + g ||| min par 31 <<< 8 = 2 ^ 8 * min par 31 + (2 ^ 4 * a + g) :=
    lor_shiftLeft_eq_add _ _ _ (by omega)
  have s3 : 2 ^ 8 * min par 31 + (2 ^ 4 * a + g) ||| pen <<< 13
      = 2 ^ 13 * pen + (2 ^ 8 * min par 31 + (2 ^ 4 * a + g)) :=
    lor_shiftLeft_eq_add _ _ _ (by omega)
  have s4 : 2 ^ 13 * pen + (2 ^ 8 * min par 31 + (2 ^ 4 * a + g)) ||| min des 63 <<< 16
      = 2 ^ 16 * min des 63 + (2 ^ 13 * pen + (2 ^ 8 * min par 31 + (2 ^ 4 * a + g))) :=
    lor_shiftLeft_eq_add _ _ _ (by omega)
  have s5 : 2 ^ 16 * min des 63 + (2 ^ 13 * pen + (2 ^ 8 * min par 31 + (2 ^ 4 * a + g)))
        ||| (mi / 3) <<< 22
      = 2 ^ 22 * (mi / 3) + (2 ^ 16 * min des 63
          + (2 ^ 13 * pen + (2 ^ 8 * min par 31 + (2 ^ 4 * a + g)))) :=
    lor_shiftLeft_eq_add _ _ _ (by omega)
  have s6 : 2 ^ 22 * (mi / 3) + (2 ^ 16 * min des 63
          + (2 ^ 13 * pen + (2 ^ 8 * min par 31 + (2 ^ 4 * a + g)))) ||| ya <<< 27
      = 2 ^ 27 * ya + (2 ^ 22 * (mi / 3) + (2 ^ 16 * min des 63
          + (2 ^ 13 * pen + (2 ^ 8 * min par 31 + (2 ^ 4 * a + g))))) :=
    lor_shiftLeft_eq_add _ _ _ (by omega)
  have s7 : 2 ^ 27 * ya + (2 ^ 22 * (mi / 3) + (2 ^ 16 * min des 63
          + (2 ^ 13 * pen + (2 ^ 8 * min par 31 + (2 ^ 4 * a + g))))) ||| ro <<< 29
      = 2 ^ 29 * ro + (2 ^ 27 * ya + (2 ^ 22 * (mi / 3) + (2 ^ 16 * min des 63
          + (2 ^ 13 * pen + (2 ^ 8 * min par 31 + (2 ^ 4 * a + g)))))) :=
    lor_shiftLeft_eq_add _ _ _ (by omega)
  have f30 : (if pc = true
        then (2 ^ 29 * ro + (2 ^ 27 * ya + (2 ^ 22 * (mi / 3) + (2 ^ 16 * min des 63
          + (2 ^ 13 * pen + (2 ^ 8 * min par 31 + (2 ^ 4 * a + g))))))) ||| 1 <<< 30
        else 2 ^ 29 * ro + (2 ^ 27 * ya + (2 ^ 22 * (mi / 3) + (2 ^ 16 * min des 63
          + (2 ^ 13 * pen + (2 ^ 8 * min par 31 + (2 ^ 4 * a + g)))))))
      = (if pc = true then 2 ^ 30 else 0)
        + (2 ^ 29 * ro + (2 ^ 27 * ya + (2 ^ 22 * (mi / 3) + (2 ^ 16 * min des 63
          + (2 ^ 13 * pen + (2 ^ 8 * min par 31 + (2 ^ 4 * a + g))))))) := by
    rcases pc
    · simp
    · simp only [reduceIte]
      rw [lor_shiftLeft_eq_add
        (2 ^ 29 * ro + (2 ^ 27 * ya + (2 ^ 22 * (mi / 3) + (2 ^ 16 * min des 63
          + (2 ^ 13 * pen + (2 ^ 8 * min par 31 + (2 ^ 4 * a + g))))))) 1 30 (by omega)]
      omega
  have f31 : (if gp = true
        then ((if pc = true then 2 ^ 30 else 0)
          + (2 ^ 29 * ro + (2 ^ 27 * ya + (2 ^ 22 * (mi / 3) + (2 ^ 16 * min des 63
            + (2 ^ 13 * pen + (2 ^ 8 * min par 31 + (2 ^ 4 * a + g)))))))) ||| 1 <<< 31
        else (if pc = true then 2 ^ 30 else 0)
          + (2 ^ 29 * ro + (2 ^ 27 * ya + (2 ^ 22 * (mi / 3) + (2 ^ 16 * min des 63
            + (2 ^ 13 * pen + (2 ^ 8 * min par 31 + (2 ^ 4 * a + g))))))))
      = (if gp = true then 2 ^ 31 else 0)
        + ((if pc = true then 2 ^ 30 else 0)
          + (2 ^ 29 * ro + (2 ^ 27 * ya + (2 ^ 22 * (mi / 3) + (2 ^ 16 * min des 63
            + (2 ^ 13 * pen + (2 ^ 8 * min par 31 + (2 ^ 4 * a + g))))))))  := by
    have hb : (if pc = true then 2 ^ 30 else 0)
        + (2 ^ 29 * ro + (2 ^ 27 * ya + (2 ^ 22 * (mi / 3) + (2 ^ 16 * min des 63
          + (2 ^ 13 * pen + (2 ^ 8 * min par 31 + (2 ^ 4 * a + g))))))) < 2 ^ 31 := by
      rcases pc <;> simp <;> omega
    rcases gp
    · simp
    · simp only [reduceIte]
      rw [lor_shiftLeft_eq_add
        ((if pc = true then 2 ^ 30 else 0)
          + (2 ^ 29 * ro + (2 ^ 27 * ya + (2 ^ 22 * (mi / 3) + (2 ^ 16 * min des 63
            + (2 ^ 13 * pen + (2 ^ 8 * min par 31 + (2 ^ 4 * a + g)))))))) 1 31 hb]
      omega
  simp only [rawWord, jsTruthy, hb1, hb2, hb3, hb4, hb5, hb6, hb7, hb8,
    s1, s2, s3, s4, s5, s6, s7, f30, f31, specPackedWord]
  rcases pc <;> rcases gp <;> simp <;> omega

/-- The bit table of spec section 3, stated by extraction: bits `i..j` of
the word `w` (i.e. `w / 2 ^ i % 2 ^ (j - i + 1)`) hold the corresponding
(clamped/quantized) field value. -/
def bitTable (w g a pen par des mi ya ro : Nat) (pc gp : Bool) : Prop :=
  w % 2 ^ 4 = g ∧
  w / 2 ^ 4 % 2 ^ 4 = a ∧
  w / 2 ^ 8 % 2 ^ 5 = min par 31 ∧
  w / 2 ^ 13 % 2 ^ 3 = pen ∧
  w / 2 ^ 16 % 2 ^ 6 = min des 63 ∧
  w / 2 ^ 22 % 2 ^ 5 = mi / 3 ∧
  w / 2 ^ 27 % 2 ^ 2 = ya ∧
  w / 2 ^ 29 % 2 = ro ∧
  w / 2 ^ 30 % 2 = (if pc then 1 else 0) ∧
  w / 2 ^ 31 % 2 = (if gp then 1 else 0) ∧
  w < 2 ^ 32

theorem specPackedWord_bitTable (g a pen par des mi ya ro : Nat) (pc gp : Bool)
    (hg : g ≤ 8) (ha : a ≤ 8) (hpen : pen ≤ 4) (hmi : mi ≤ 90)
    (hya : ya ≤ 2) (hro : ro ≤ 1) :
    bitTable (specPackedWord g a pen par des mi ya ro pc gp) g a pen par des mi ya ro pc gp := by
  have h1 : min par 31 ≤ 31 := min_le_right _ _
  have h2 : min des 63 ≤ 63 := min_le_right _ _
  rcases pc <;> rcases gp <;>
    · simp only [specPackedWord, bitTable, Bool.false_eq_true, reduceIte, if_true, if_false]
      omega

theorem pack32_ok_of_no_hit (p : PlayerStat) (h : hardLimitHit p = false) :
    pack32 p = .ok ("0x" ++ String.mk (padStart 8 '0' (hexRep (rawWord p)))) := by
  simp only [hardLimitHit, Bool.or_eq_false_iff] at h
  obtain ⟨⟨⟨⟨⟨⟨⟨h1, h2⟩, h3⟩, h4⟩, h5⟩, h6⟩, h7⟩, h8⟩ := h
  simp [pack32, h1, h2, h3, h4, h5, h6, h7, h8]

/-- C1: for every PlayerStat that passes the hard-limit checks, `pack32`
returns the 32-bit word laid out exactly as the spec's bit table — goles
in bits 0-3, asistencias in 4-7, paradas clamped to at most 31 in 8-12,
penaltisParados in 13-15, despejes clamped to at most 63 in 16-21,
floor(minutosJugados / 3) in 22-26, tarjetasAmarillas in 27-28,
tarjetasRojas in bit 29, porteriaCero in bit 30, ganoPartido in bit 31 —
rendered as `0x` followed by exactly 8 lowercase hexadecimal characters,
left-zero-padded. -/
theorem claim_C1_bit_layout (idv : Int) (g a pen par des mi ya ro : Nat) (pc gp : Bool)
    (hg : g ≤ 8) (ha : a ≤ 8) (hpen : pen ≤ 4) (hpar : par ≤ 32) (hdes : des ≤ 64)
    (hmi : mi ≤ 90) (hya : ya ≤ 2) (hro : ro ≤ 1) :
    pack32 ⟨idv, some (g : Int), some (a : Int), some (pen : Int), some (par : Int),
            some (des : Int), some (mi : Int), some (ya : Int), some (ro : Int),
            some pc, some gp⟩
      = .ok ("0x" ++ String.mk (padStart 8 '0'
          (hexRep (specPackedWord g a pen par des mi ya ro pc gp)))) ∧
    (padStart 8 '0' (hexRep (specPackedWord g a pen par des mi ya ro pc gp))).length = 8 ∧
    (∀ c ∈ padStart 8 '0' (hexRep (specPackedWord g a pen par des mi ya ro pc gp)),
       isHexLower c = true) ∧
    bitTable (specPackedWord g a pen par des mi ya ro pc gp) g a pen par des mi ya ro pc gp := by
  have hhit : hardLimitHit
      ⟨idv, some (g : Int), some (a : Int), some (pen : Int), some (par : Int),
       some (des : Int), some (mi : Int), some (ya : Int), some (ro : Int),
       some pc, some gp⟩ = false := by
    simp only [hardLimitHit, jsGtNum, Bool.or_eq_false_iff, decide_eq_false_iff_not, not_lt]
    refine ⟨⟨⟨⟨⟨⟨⟨?_, ?_⟩, ?_⟩, ?_⟩, ?_⟩, ?_⟩, ?_⟩, ?_⟩ <;> omega
  have hlen : (hexRep (specPackedWord g a pen par des mi ya ro pc gp)).length ≤ 8 := by
    apply hexRep_length_le 8 _ (by omega)
    calc specPackedWord g a pen par des mi ya ro pc gp
        < 2 ^ 32 := specPackedWord_lt g a pen par des mi ya ro pc gp hg ha hpen hmi hya hro
      _ = 16 ^ 8 := by norm_num
  refine ⟨?_, ?_, ?_, ?_⟩
  · rw [pack32_ok_of_no_hit _ hhit,
      rawWord_eq_spec idv g a pen par des mi ya ro pc gp hg ha hpen hpar hdes hmi hya hro]
  · exact padStart_length 8 '0' _ hlen
  · exact padStart_chars 8 _ (hexRep_chars _)
  · exact specPackedWord_bitTable g a pen par des mi ya ro pc gp hg ha hpen hmi hya hro

/-- Witness for C1: the end-to-end record of spec section 8 (id 1, goles
2, asistencias 1, paradas 5, despejes 10, minutosJugados 90, ganoPartido
true), at a concrete input. -/
theorem claim_C1_bit_layout_witness :
    pack32 ⟨1, some 2, some 1, some 0, some 5, some 10, some 90, some 0, some 0,
            some false, some true⟩
      = .ok ("0x" ++ String.mk (padStart 8 '0'
          (hexRep (specPackedWord 2 1 0 5 10 90 0 0 false true)))) :=
  (claim_C1_bit_layout 1 2 1 0 5 10 90 0 0 false true (by decide) (by decide)
    (by decide) (by decide) (by decide) (by decide) (by decide) (by decide)).1

/-- The six `pack32` error-message stems; `pack32` appends the record id
to one of them. -/
def validationStems : List String :=
  ["goles>8 id=", "asis>8 id=", "penaltisParados>4 id=",
   "paradas/despejes fuera de rango id=", "minutos>90 id=",
   "tarjetas fuera de rango id="]

/-- C2: `pack32` fails (with a `ValidationError` naming the offending
field and the record id) if and only if `goles > 8`, `asistencias > 8`,
`penaltisParados > 4`, `paradas > 32`, `despejes > 64`,
`minutosJugados > 90`, `tarjetasAmarillas > 2` or `tarjetasRojas > 1`
(`hardLimitHit`); every error message is one of the field-naming stems
with the record id appended; and every record whose fields sit exactly at
the limits (goles = asistencias = 8, penaltisParados = 4, paradas = 32,
despejes = 64, minutosJugados = 90, tarjetasAmarillas = 2,
tarjetasRojas = 1) packs successfully. -/
theorem claim_C2_hard_limits (p : PlayerStat) :
    ((pack32 p).isOk = false ↔ hardLimitHit p = true) ∧
    (∀ msg, pack32 p = .error msg →
      ∃ pre ∈ validationStems, msg = pre ++ toString p.id) ∧
    (∀ (idv : Int) (pc gp : Option Bool),
      (pack32 ⟨idv, some 8, some 8, some 4, some 32, some 64, some 90, some 2, some 1,
               pc, gp⟩).isOk = true) := by
  refine ⟨?_, ?_, ?_⟩
  · unfold pack32
    repeat' split
    all_goals simp_all [hardLimitHit, Except.isOk, Except.toBool]
  · intro msg h
    unfold pack32 at h
    repeat' split at h
    all_goals simp only [Except.error.injEq, reduceCtorEq] at h
    all_goals try subst h
    · exact ⟨"goles>8 id=", by simp [validationStems], rfl⟩
    · exact ⟨"asis>8 id=", by simp [validationStems], rfl⟩
    · exact ⟨"penaltisParados>4 id=", by simp [validationStems], rfl⟩
    · exact ⟨"paradas/despejes fuera de rango id=", by simp [validationStems], rfl⟩
    · exact ⟨"minutos>90 id=", by simp [validationStems], rfl⟩
    · exact ⟨"tarjetas fuera de rango id=", by simp [validationStems], rfl⟩
  · intro idv pc gp
    simp [pack32, jsGtNum, Except.isOk, Except.toBool]

/-- Witness for C2: the failure-iff-limit equivalence at a concrete
over-limit record (goles = 9). -/
theorem claim_C2_hard_limits_witness :
    ((pack32 ⟨7, some 9, none, none, none, none, none, none, none, none, none⟩).isOk
        = false
      ↔ hardLimitHit ⟨7, some 9, none, none, none, none, none, none, none, none, none⟩
        = true) :=
  (claim_C2_hard_limits ⟨7, some 9, none, none, none, none, none, none, none, none, none⟩).1

/-- C8: with all numeric fields zero, setting only `ganoPartido` packs to
exactly `0x80000000`, and setting only `porteriaCero` packs to exactly
`0x40000000` (8 hex characters, left-zero-padded). -/
theorem claim_C8_flag_bits :
    pack32 ⟨1, some 0, some 0, some 0, some 0, some 0, some 0, some 0, some 0,
            some false, some true⟩ = .ok "0x80000000" ∧
    pack32 ⟨1, some 0, some 0, some 0, some 0, some 0, some 0, some 0, some 0,
            some true, some false⟩ = .ok "0x40000000" := by
  constructor
  · rw [pack32_ok_of_no_hit _ (by decide)]
    have hw : rawWord ⟨1, some 0, some 0, some 0, some 0, some 0, some 0, some 0, some 0,
        some false, some true⟩ = 2147483648 := by decide
    rw [hw]
    simp [hexRep, hexDigitChar, padStart]
  · rw [pack32_ok_of_no_hit _ (by decide)]
    have hw : rawWord ⟨1, some 0, some 0, some 0, some 0, some 0, some 0, some 0, some 0,
        some true, some false⟩ = 1073741824 := by decide
    rw [hw]
    simp [hexRep, hexDigitChar, padStart]

/-- C9: `pack32` enforces only upper bounds — whenever no hard limit is
exceeded (in particular for records with negative fields, which never
trip a `> limit` guard) it succeeds, and a negative value is bit-masked
into the word: `goles = -1` encodes the goles field as 15
(`0x0000000f`), `paradas = -1` encodes the paradas field as 31
(`0x00001f00`).  No lower bound is ever checked. -/
theorem claim_C9_no_lower_bound (p : PlayerStat) (h : hardLimitHit p = false) :
    (pack32 p).isOk = true ∧
    pack32 ⟨2, some (-1), some 0, some 0, some 0, some 0, some 0, some 0, some 0,
            some false, some false⟩ = .ok "0x0000000f" ∧
    pack32 ⟨3, some 0, some 0, some 0, some (-1), some 0, some 0, some 0, some 0,
            some false, some false⟩ = .ok "0x00001f00" := by
  refine ⟨?_, ?_, ?_⟩
  · rw [pack32_ok_of_no_hit p h]
    rfl
  · rw [pack32_ok_of_no_hit _ (by decide)]
    have hw : rawWord ⟨2, some (-1), some 0, some 0, some 0, some 0, some 0, some 0,
        some 0, some false, some false⟩ = 15 := by decide
    rw [hw]
    simp [hexRep, hexDigitChar, padStart]
  · rw [pack32_ok_of_no_hit _ (by decide)]
    have hw : rawWord ⟨3, some 0, some 0, some 0, some (-1), some 0, some 0, some 0,
        some 0, some false, some false⟩ = 7936 := by decide
    rw [hw]
    simp [hexRep, hexDigitChar, padStart]

/-- Witness for C9: the record with `goles = -1` (and zeros elsewhere)
trips no hard limit and packs successfully. -/
theorem claim_C9_no_lower_bound_witness :
    (pack32 ⟨2, some (-1), some 0, some 0, some 0, some 0, some 0, some 0, some 0,
             some false, some false⟩).isOk = true :=
  (claim_C9_no_lower_bound
    ⟨2, some (-1), some 0, some 0, some 0, some 0, some 0, some 0, some 0,
     some false, some false⟩ (by decide)).1

/-- C10: only a missing `goles` field causes the skip; a record with
`goles` present and every other field absent is neither skipped (its
`goles` is not `undefined`) nor rejected (absent fields fail no
upper-bound guard), and packs with every missing numeric field and flag
encoded as 0 — the word consists of the goles nibble alone. -/
theorem claim_C10_partial_records (idv : Int) (g : Int) (hg : g ≤ 8) :
    (⟨idv, some g, none, none, none, none, none, none, none, none, none⟩ :
        PlayerStat).goles.isNone = false ∧
    pack32 ⟨idv, some g, none, none, none, none, none, none, none, none, none⟩
      = .ok ("0x" ++ String.mk (padStart 8 '0' (hexRep ((g % 16).toNat)))) := by
  constructor
  · rfl
  · have hhit : hardLimitHit
        ⟨idv, some g, none, none, none, none, none, none, none, none, none⟩ = false := by
      simp [hardLimitHit, jsGtNum]
      omega
    rw [pack32_ok_of_no_hit _ hhit]
    have hw : rawWord ⟨idv, some g, none, none, none, none, none, none, none, none, none⟩
        = (g % 16).toNat := by
      simp [rawWord, bitsOf, jsMin, jsFloorDiv, jsTruthy, Nat.zero_shiftLeft,
        Nat.or_zero, Nat.zero_or]
    rw [hw]

/-- Witness for C10: `goles = 5`, all other fields absent. -/
theorem claim_C10_partial_records_witness :
    pack32 ⟨7, some 5, none, none, none, none, none, none, none, none, none⟩
      = .ok ("0x" ++ String.mk (padStart 8 '0' (hexRep (((5 : Int) % 16).toNat)))) :=
  (claim_C10_partial_records 7 5 (by decide)).2

theorem attemptLoop_attempts (env : Env) (c : Nat) (req : TxRequest) :
    ∀ fuel a, ∀ q ∈ (attemptLoop env c req a fuel).1, q = req := by
  intro fuel
  induction fuel with
  | zero =>
    intro a q hq
    simp [attemptLoop] at hq
  | succ fuel ih =>
    intro a q hq
    rw [attemptLoop] at hq
    rcases hs : env.submit c a with _ | o <;> rw [hs] at hq
    · simp only [List.mem_cons] at hq
      rcases hq with h | h
      · exact h
      · exact ih (a + 1) q h
    · simp only [List.mem_singleton] at hq
      exact hq

theorem sendPacked_ok_spec (env : Env) (c : Nat) (hex : String) (idv : Int)
    (nonce : Nat) (r : RecordResult)
    (h : sendPacked env c hex idv nonce = .ok r) :
    ∃ b, env.baseFee c = some b ∧
      r.req = { gas := GAS_LIMIT, maxPriorityFeePerGas := 2 * 10 ^ 9,
                maxFeePerGas := b * 2 + 2 * 10 ^ 9, nonce := nonce,
                callId := idv, callData := hex } ∧
      r.id = idv ∧
      (∀ q ∈ r.attempts, q = r.req) := by
  rcases hb : env.baseFee c with _ | b
  · simp only [sendPacked, hb] at h
    exact absurd h (by simp)
  · simp only [sendPacked, hb] at h
    split at h
    · rename_i atts o heq
      simp only [Except.ok.injEq] at h
      subst h
      refine ⟨b, rfl, rfl, rfl, ?_⟩
      intro q hq
      exact attemptLoop_attempts env c _ 4 0 q (by rw [heq]; exact hq)
    · exact absurd h (by simp)

theorem numPresent_cons (p : PlayerStat) (rest : List PlayerStat) :
    numPresent (p :: rest)
      = if p.goles.isSome then numPresent rest + 1 else numPresent rest := by
  by_cases h : p.goles.isSome = true <;>
    simp [numPresent, List.filter_cons, h]

/-- Invariant of a successful loop run: nonces are handed out
consecutively starting at the incoming nonce, the call counter and the
result list advance in lock step with the records that pass the
`goles`-presence check, and every retry attempt of every submitted record
signed the very request that was built for it. -/
theorem runRecords_ok_inv (env : Env) :
    ∀ (l : List PlayerStat) (st st' : BatchState),
      runRecords env st l = .ok st' →
      st'.nonce = st.nonce + numPresent l ∧
      st'.callIdx = st.callIdx + numPresent l ∧
      st'.results.length = st.results.length + numPresent l ∧
      st'.results.map (fun r => r.req.nonce)
        = st.results.map (fun r => r.req.nonce) ++ List.range' st.nonce (numPresent l) ∧
      (∀ r ∈ st'.results, r ∈ st.results ∨ ∀ q ∈ r.attempts, q = r.req) := by
  intro l
  induction l with
  | nil =>
    intro st st' h
    simp only [runRecords, Except.ok.injEq] at h
    subst h
    refine ⟨by simp [numPresent], by simp [numPresent], by simp [numPresent],
      by simp [numPresent], ?_⟩
    exact fun r hr => Or.inl hr
  | cons p rest ih =>
    intro st st' h
    rw [runRecords] at h
    by_cases hskip : p.goles.isNone
    · rw [if_pos hskip] at h
      have hnum : numPresent (p :: rest) = numPresent rest := by
        rw [numPresent_cons, if_neg]
        simp only [Option.isNone_iff_eq_none] at hskip
        simp [hskip]
      rw [hnum]
      exact ih st st' h
    · rw [if_neg hskip] at h
      have hnum : numPresent (p :: rest) = numPresent rest + 1 := by
        rw [numPresent_cons, if_pos]
        rcases hg : p.goles with _ | v
        · rw [hg] at hskip
          simp at hskip
        · simp
      split at h
      · exact absurd h (by simp)
      · rename_i packed hpack
        split at h
        · exact absurd h (by simp)
        · rename_i r hsend
          obtain ⟨b, hb, hreq, hid, hatts⟩ :=
            sendPacked_ok_spec env st.callIdx packed p.id st.nonce r hsend
          obtain ⟨h1, h2, h3, h4, h5⟩ := ih _ st' h
          have hrnonce : r.req.nonce = st.nonce := by rw [hreq]
          refine ⟨?_, ?_, ?_, ?_, ?_⟩
          · simp only [h1, hnum]
            omega
          · simp only [h2, hnum]
            omega
          · simp only [h3, List.length_append, hnum]
            simp
            omega
          · rw [h4, hnum, List.range'_succ]
            simp only [List.map_append, List.map_cons, List.map_nil, hrnonce]
            simp
          · intro r' hr'
            rcases h5 r' hr' with hmem | hprop
            · rcases List.mem_append.mp hmem with hmem' | hmem'
              · exact Or.inl hmem'
              · simp only [List.mem_singleton] at hmem'
                subst hmem'
                exact Or.inr hatts
            · exact Or.inr hprop

/-- C3: in every batch run that completes, the `N` records that pass the
`goles`-presence check are submitted at nonces exactly
`n0, n0 + 1, …, n0 + N - 1`, in order, with no duplicates and no gaps
(the nonce map of the result trace is `List.range' n0 N`), even when
records needed retries; and every retry attempt of a record signed the
one request built for it (same nonce and contents). -/
theorem claim_C3_nonce_sequence (env : Env) (stats : List PlayerStat) (n0 : Nat)
    (st : BatchState) (s : Summary)
    (h : runBatch env stats n0 = .ok (st, s)) :
    st.results.map (fun r => r.req.nonce) = List.range' n0 (numPresent stats) ∧
    st.results.length = numPresent stats ∧
    st.nonce = n0 + numPresent stats ∧
    ∀ r ∈ st.results, ∀ q ∈ r.attempts, q = r.req := by
  have hrun : runRecords env (initState n0) stats = .ok st := by
    unfold runBatch at h
    split at h
    · exact absurd h (by simp)
    · rename_i st2 heq
      simp only [Except.ok.injEq, Prod.mk.injEq] at h
      rw [← h.1]
      exact heq
  obtain ⟨h1, _h2, h3, h4, h5⟩ := runRecords_ok_inv env stats (initState n0) st hrun
  refine ⟨?_, ?_, ?_, ?_⟩
  · rw [h4]
    simp [initState]
  · rw [h3]
    simp [initState]
  · rw [h1]
    simp [initState]
  · intro r hr
    rcases h5 r hr with hmem | hp
    · simp [initState] at hmem
    · exact hp

theorem runRecords_error_frame (env : Env) :
    ∀ (l : List PlayerStat) (st : BatchState) (e : BatchFail × List RecordResult),
      runRecords env st l = .error e →
      ∀ l2, runRecords env st (l ++ l2) = .error e := by
  intro l
  induction l with
  | nil =>
    intro st e h l2
    simp [runRecords] at h
  | cons p rest ih =>
    intro st e h l2
    rw [List.cons_append, runRecords]
    rw [runRecords] at h
    by_cases hskip : p.goles.isNone
    · rw [if_pos hskip] at h ⊢
      exact ih st e h l2
    · rw [if_neg hskip] at h ⊢
      rcases hp : pack32 p with msg | packed
      · simp only [hp] at h ⊢
        exact h
      · simp only [hp] at h ⊢
        rcases hs : sendPacked env st.callIdx packed p.id st.nonce with f | r
        · simp only [hs] at h ⊢
          exact h
        · simp only [hs] at h ⊢
          exact ih _ e h l2

/-- C4: a batch run that fails — a `ValidationError` thrown by `pack32`
on some record, or a record exhausting all retry attempts (or the base
fee being unavailable) — aborts immediately: appending further records
changes nothing about the outcome, so no submission is ever made for any
record after the failing one, and no summary exists (the error result of
`runBatch` carries no `Summary`; only the `.ok` result does). -/
theorem claim_C4_abort (env : Env) (stats extra : List PlayerStat) (n0 : Nat)
    (e : BatchFail × List RecordResult)
    (h : runBatch env stats n0 = .error e) :
    runBatch env (stats ++ extra) n0 = .error e := by
  unfold runBatch at h
  split at h
  · rename_i e' hr
    simp only [Except.error.injEq] at h
    subst h
    unfold runBatch
    rw [runRecords_error_frame env stats (initState n0) e' hr extra]
  · exact absurd h (by simp)

/-- The fee contract of one submission: fixed gas limit, fixed tip
`2·10⁹`, and `maxFee = 2·(base fee fetched for this very call) + tip`. -/
def feeSpec (env : Env) (j : Nat) (r : RecordResult) : Prop :=
  r.req.gas = GAS_LIMIT ∧ r.req.maxPriorityFeePerGas = 2 * 10 ^ 9 ∧
  ∃ b, env.baseFee j = some b ∧ r.req.maxFeePerGas = b * 2 + 2 * 10 ^ 9

theorem runRecords_fees (env : Env) :
    ∀ (l : List PlayerStat) (st st' : BatchState),
      runRecords env st l = .ok st' →
      st.callIdx = st.results.length →
      (∀ j (hj : j < st.results.length), feeSpec env j (st.results.get ⟨j, hj⟩)) →
      st'.callIdx = st'.results.length ∧
      ∀ j (hj : j < st'.results.length), feeSpec env j (st'.results.get ⟨j, hj⟩) := by
  intro l
  induction l with
  | nil =>
    intro st st' h hc hf
    simp only [runRecords, Except.ok.injEq] at h
    subst h
    exact ⟨hc, hf⟩
  | cons p rest ih =>
    intro st st' h hc hf
    rw [runRecords] at h
    by_cases hskip : p.goles.isNone
    · rw [if_pos hskip] at h
      exact ih st st' h hc hf
    · rw [if_neg hskip] at h
      split at h
      · exact absurd h (by simp)
      · rename_i packed hpack
        split at h
        · exact absurd h (by simp)
        · rename_i r hsend
          obtain ⟨b, hb, hreq, hid, hatts⟩ :=
            sendPacked_ok_spec env st.callIdx packed p.id st.nonce r hsend
          apply ih _ st' h
          · simp [hc]
          · intro j hj
            simp only [List.length_append, List.length_singleton] at hj
            by_cases hjl : j < st.results.length
            · rw [List.get_append j hjl]
              exact hf j hjl
            · have hj' : j = st.results.length := by omega
              have : (st.results ++ [r]).get ⟨j, by simp; omega⟩ = r := by
                rw [List.get_eq_getElem]
                exact List.getElem_concat_length st.results r j hj' _
              rw [this]
              refine ⟨by rw [hreq], by rw [hreq], b, ?_, by rw [hreq]⟩
              rw [hj', ← hc]
              exact hb

/-- C7: for every submission of a completed run, the fee parameters are
recomputed from the base fee freshly fetched for that very call (the
`j`-th record submitted reads `env.baseFee j` — not a cached value), with
exact integer arithmetic `tip = 2·10⁹`, `maxFee = 2·baseFee + tip`, and
the fixed gas limit 120000 attached to the request. -/
theorem claim_C7_fee_derivation (env : Env) (stats : List PlayerStat) (n0 : Nat)
    (st : BatchState) (s : Summary)
    (h : runBatch env stats n0 = .ok (st, s)) :
    ∀ j (hj : j < st.results.length),
      (st.results.get ⟨j, hj⟩).req.gas = 120000 ∧
      (st.results.get ⟨j, hj⟩).req.maxPriorityFeePerGas = 2 * 10 ^ 9 ∧
      ∃ b, env.baseFee j = some b ∧
        (st.results.get ⟨j, hj⟩).req.maxFeePerGas = b * 2 + 2 * 10 ^ 9 := by
  have hrun : runRecords env (initState n0) stats = .ok st := by
    unfold runBatch at h
    split at h
    · exact absurd h (by simp)
    · rename_i st2 heq
      simp only [Except.ok.injEq, Prod.mk.injEq] at h
      rw [← h.1]
      exact heq
  have hinit : (initState n0).callIdx = (initState n0).results.length := rfl
  have hbase : ∀ j (hj : j < (initState n0).results.length),
      feeSpec env j ((initState n0).results.get ⟨j, hj⟩) := by
    intro j hj
    simp [initState] at hj
  obtain ⟨_, hfee⟩ := runRecords_fees env stats (initState n0) st hrun hinit hbase
  intro j hj
  exact hfee j hj

theorem runRecords_skip_frame (env : Env) (bad : PlayerStat) (hbad : bad.goles = none) :
    ∀ (l1 l2 : List PlayerStat) (st : BatchState),
      runRecords env st (l1 ++ bad :: l2) = runRecords env st (l1 ++ l2) := by
  intro l1
  induction l1 with
  | nil =>
    intro l2 st
    simp only [List.nil_append]
    rw [runRecords, if_pos (by simp [hbad])]
  | cons p l1' ih =>
    intro l2 st
    simp only [List.cons_append]
    rw [runRecords, runRecords]
    by_cases hskip : p.goles.isNone
    · rw [if_pos hskip, if_pos hskip]
      exact ih l2 st
    · rw [if_neg hskip, if_neg hskip]
      rcases hp : pack32 p with msg | packed
      · simp only [hp]
      · simp only [hp]
        rcases hs : sendPacked env st.callIdx packed p.id st.nonce with f | r
        · simp only [hs]
        · simp only [hs]
          exact ih l2 _

/-- C6: a record lacking `goles` is skipped before validation — inserting
it anywhere in a batch changes neither the trace, the nonces, the
submissions, nor the metrics accumulators (the entire final state is that
of the run without it), yet the record still raises by one the divisor
(`stats.length`) used for the summary's processed count and its average
gas and average latency. -/
theorem claim_C6_skip_divisor (env : Env) (l1 l2 : List PlayerStat) (n0 : Nat)
    (bad : PlayerStat) (hbad : bad.goles = none) :
    runBatch env (l1 ++ bad :: l2) n0 =
      match runBatch env (l1 ++ l2) n0 with
      | .error e => .error e
      | .ok (st, _) => .ok (st, summarize st ((l1 ++ l2).length + 1)) := by
  unfold runBatch
  rw [runRecords_skip_frame env bad hbad l1 l2 (initState n0)]
  rcases hr : runRecords env (initState n0) (l1 ++ l2) with e | st
  · rfl
  · have hlen : (l1 ++ bad :: l2).length = (l1 ++ l2).length + 1 := by
      simp only [List.length_append, List.length_cons]
      omega
    rw [hlen]

/-- C5 counterexample: the claim says a negative pending-block base fee
makes fee derivation fail with `InvalidFeeInput`; in the code there is no
sign check at all — with base fee `-7` the submission proceeds and
derives `maxFee = 2·(-7) + 2·10⁹ = 1999999986`. -/
theorem claim_C5_counterexample :
    sendPacked ⟨fun _ => some (-7), fun _ _ => some ⟨21000, 5⟩⟩ 0 "0x00000000" 1 6
      = .ok { id := 1,
              req := { gas := 120000, maxPriorityFeePerGas := 2000000000,
                       maxFeePerGas := 1999999986, nonce := 6, callId := 1,
                       callData := "0x00000000" },
              attempts := [{ gas := 120000, maxPriorityFeePerGas := 2000000000,
                             maxFeePerGas := 1999999986, nonce := 6, callId := 1,
                             callData := "0x00000000" }],
              outcome := ⟨21000, 5⟩ } := by
  rfl

theorem attemptLoop_first_success (env : Env) (c : Nat) (req : TxRequest)
    (o : Outcome) (h : env.submit c 0 = some o) :
    attemptLoop env c req 0 4 = ([req], some o) := by
  have h4 : (4 : Nat) = 3 + 1 := rfl
  rw [h4]
  simp only [attemptLoop, h]

/-- C5 (amended): if the base fee read from the pending block is
unavailable, the `BigInt` conversion in `sendPacked` throws **before**
the retry loop is entered: the record fails immediately with the
conversion error, no submission attempt is made and no retry budget is
consumed.  A negative base fee is not rejected at all: fee derivation
proceeds with `maxFee = 2·baseFee + tip` and the submission is sent (the
success shape below holds for every base fee `b`, negative included). -/
theorem claim_C5_fee_input (env : Env) (c : Nat) (hex : String) (idv : Int)
    (nonce : Nat) :
    (env.baseFee c = none →
      sendPacked env c hex idv nonce = .error .feeUnavailable) ∧
    (∀ b o, env.baseFee c = some b → env.submit c 0 = some o →
      sendPacked env c hex idv nonce
        = .ok { id := idv,
                req := { gas := GAS_LIMIT, maxPriorityFeePerGas := 2 * 10 ^ 9,
                         maxFeePerGas := b * 2 + 2 * 10 ^ 9, nonce := nonce,
                         callId := idv, callData := hex },
                attempts := [{ gas := GAS_LIMIT, maxPriorityFeePerGas := 2 * 10 ^ 9,
                               maxFeePerGas := b * 2 + 2 * 10 ^ 9, nonce := nonce,
                               callId := idv, callData := hex }],
                outcome := o }) := by
  constructor
  · intro hb
    simp [sendPacked, hb]
  · intro b o hb ho
    have ha := attemptLoop_first_success env c
      { gas := GAS_LIMIT, maxPriorityFeePerGas := 2 * 10 ^ 9,
        maxFeePerGas := b * 2 + 2 * 10 ^ 9, nonce := nonce,
        callId := idv, callData := hex } o ho
    norm_num at ha ⊢
    simp [sendPacked, hb, ha]

/-- Witness for the amended C5: a network whose pending block carries no
base fee — the record fails with the conversion error even though every
submission attempt would succeed. -/
theorem claim_C5_fee_input_witness :
    sendPacked ⟨fun _ => none, fun _ _ => some ⟨21000, 5⟩⟩ 0 "0x00000000" 1 6
      = .error .feeUnavailable :=
  (claim_C5_fee_input ⟨fun _ => none, fun _ _ => some ⟨21000, 5⟩⟩ 0 "0x00000000" 1 6).1 rfl

/-- Demo network: base fee always 100; the very first attempt of the
first `sendPacked` call rejects (forcing one retry), everything else
lands with gas 21000 and latency 5 ms. -/
def envRetry : Env :=
  ⟨fun _ => some 100, fun c a => if c == 0 && a == 0 then none else some ⟨21000, 5⟩⟩

def recDemo1 : PlayerStat := ⟨1, some 1, none, none, none, none, none, none, none, none, none⟩

def recDemoSkip : PlayerStat := ⟨9, none, none, none, none, none, none, none, none, none, none⟩

def recDemo2 : PlayerStat := ⟨2, some 2, none, none, none, none, none, none, none, none, none⟩

def statsDemo : List PlayerStat := [recDemo1, recDemoSkip, recDemo2]

def reqDemo1 : TxRequest := ⟨120000, 2000000000, 2000000200, 5, 1, "0x00000001"⟩

def reqDemo2 : TxRequest := ⟨120000, 2000000000, 2000000200, 6, 2, "0x00000002"⟩

def stDemo : BatchState :=
  ⟨7, 2, 42000, [5, 5],
   [⟨1, reqDemo1, [reqDemo1, reqDemo1], ⟨21000, 5⟩⟩,
    ⟨2, reqDemo2, [reqDemo2], ⟨21000, 5⟩⟩]⟩

theorem runBatch_demo :
    runBatch envRetry statsDemo 5 = .ok (stDemo, summarize stDemo 3) := by
  have e1 : pack32 recDemo1 = .ok "0x00000001" := by
    rw [pack32_ok_of_no_hit _ (by decide)]
    have hw : rawWord recDemo1 = 1 := by decide
    rw [hw]
    simp [hexRep, hexDigitChar, padStart]
  have e2 : pack32 recDemo2 = .ok "0x00000002" := by
    rw [pack32_ok_of_no_hit _ (by decide)]
    have hw : rawWord recDemo2 = 2 := by decide
    rw [hw]
    simp [hexRep, hexDigitChar, padStart]
  have s1 : sendPacked envRetry 0 "0x00000001" 1 5
      = .ok ⟨1, reqDemo1, [reqDemo1, reqDemo1], ⟨21000, 5⟩⟩ := rfl
  have s2 : sendPacked envRetry 1 "0x00000002" 2 6
      = .ok ⟨2, reqDemo2, [reqDemo2], ⟨21000, 5⟩⟩ := rfl
  have g1 : recDemo1.goles.isNone = false := rfl
  have gs : recDemoSkip.goles.isNone = true := rfl
  have g2 : recDemo2.goles.isNone = false := rfl
  have i1 : recDemo1.id = 1 := rfl
  have i2 : recDemo2.id = 2 := rfl
  simp only [runBatch, runRecords, statsDemo, initState, g1, gs, g2, i1, i2,
    e1, e2, Bool.false_eq_true, if_false, if_true, Nat.zero_add, Nat.add_zero,
    List.nil_append, Nat.reduceAdd, s1, s2, List.length_cons, List.length_nil]
  rfl

/-- Witness for C3: the demo batch (one record that retries once, one
skipped record, one record that lands first try) hands out nonces 5 and 6
with no gap, and each retry signs the request built for its record. -/
theorem claim_C3_nonce_sequence_witness :
    runBatch envRetry statsDemo 5 = .ok (stDemo, summarize stDemo 3) ∧
    stDemo.results.map (fun r => r.req.nonce) = List.range' 5 (numPresent statsDemo) ∧
    stDemo.results.length = numPresent statsDemo ∧
    stDemo.nonce = 5 + numPresent statsDemo ∧
    ∀ r ∈ stDemo.results, ∀ q ∈ r.attempts, q = r.req :=
  ⟨runBatch_demo,
   claim_C3_nonce_sequence envRetry statsDemo 5 stDemo (summarize stDemo 3) runBatch_demo⟩

def recBad : PlayerStat := ⟨1, some 9, none, none, none, none, none, none, none, none, none⟩

/-- Witness for C4: a leading record with `goles = 9` makes the whole
batch fail with the `ValidationError`, no matter how many records follow;
nothing is submitted and no summary is produced. -/
theorem claim_C4_abort_witness :
    runBatch envRetry ([recBad] ++ statsDemo) 5
      = .error (.validation ("goles>8 id=" ++ toString (1 : Int)), []) :=
  claim_C4_abort envRetry [recBad] statsDemo 5
    (.validation ("goles>8 id=" ++ toString (1 : Int)), []) rfl

/-- Witness for C6: inserting the skipped record between the two
submitted ones leaves the whole outcome unchanged except that the
summary's divisor counts it. -/
theorem claim_C6_skip_divisor_witness :
    runBatch envRetry ([recDemo1] ++ recDemoSkip :: [recDemo2]) 5 =
      match runBatch envRetry ([recDemo1] ++ [recDemo2]) 5 with
      | .error e => .error e
      | .ok (st, _) => .ok (st, summarize st (([recDemo1] ++ [recDemo2]).length + 1)) :=
  claim_C6_skip_divisor envRetry [recDemo1] [recDemo2] 5 recDemoSkip rfl

/-- Witness for C7: the first submitted record of the demo batch carries
gas limit 120000, tip 2·10⁹ and `maxFee = 2·100 + 2·10⁹`. -/
theorem claim_C7_fee_derivation_witness :
    (stDemo.results.get ⟨0, by decide⟩).req.gas = 120000 ∧
    (stDemo.results.get ⟨0, by decide⟩).req.maxPriorityFeePerGas = 2 * 10 ^ 9 ∧
    ∃ b, envRetry.baseFee 0 = some b ∧
      (stDemo.results.get ⟨0, by decide⟩).req.maxFeePerGas = b * 2 + 2 * 10 ^ 9 :=
  claim_C7_fee_derivation envRetry statsDemo 5 stDemo (summarize stDemo 3)
    runBatch_demo 0 (by decide)

end OraculoFantasy
